import Mathlib

/-!
# JNIManagedPeer: lifetime shim between native code and the Java runtime

A shallow embedding of `JNIManagedPeer.h` / `JNIManagedPeer.cpp`.

* Pointers and JNI references (`JavaVM*`, `JNIEnv*`, `jobject`, `jclass`) are natural
  numbers, `0` being `nullptr`.
* The Java runtime is external: its answers are given by a `Runtime` record of functions that
  may depend on the whole history of calls made so far.
* Every call that crosses into the runtime is appended to `World.trace`.
* Dereferencing a null pointer is undefined behaviour; it is modelled as the outcome `fault`,
  which keeps the world reached up to that point.
-/

namespace JNI

/-- The null pointer / null reference. -/
def nullptr : Nat := 0

/-- One call across the native/managed boundary, with the receiver it was made on. -/
inductive Call where
  | AttachCurrentThread (jvm : Nat)
  | FindClass (env : Nat) (className : String)
  | NewGlobalRef (env : Nat) (obj : Nat)
  | DeleteGlobalRef (env : Nat) (obj : Nat)
  | DeleteLocalRef (env : Nat) (obj : Nat)
  deriving DecidableEq, Repr

/-- The answers of the Java runtime. Each answer may depend on the calls made before it.
`AttachCurrentThread tr jvm` is the value the runtime leaves in the out parameter `env`
(`0` when the attachment fails). -/
structure Runtime where
  AttachCurrentThread : List Call → Nat → Nat
  FindClass : List Call → Nat → String → Nat
  NewGlobalRef : List Call → Nat → Nat → Nat

/-- Process state: the file-static `s_JVM` and the history of runtime calls. -/
structure World where
  s_JVM : Nat
  trace : List Call
  deriving DecidableEq, Repr

/-- State at program start: `static JavaVM* s_JVM = nullptr;` and no call made yet. -/
def World.init : World := { s_JVM := nullptr, trace := [] }

/-- Result of running a piece of the program: normal completion with a value, or undefined
behaviour (a null dereference) reached in the given world. -/
inductive Outcome (α : Type) where
  | ok (val : α) (w : World)
  | fault (w : World)
  deriving DecidableEq, Repr

/-- The world in which the run ended, normally or not. -/
def Outcome.world {α : Type} : Outcome α → World
  | .ok _ w => w
  | .fault w => w

/-- The value of a run that completed normally. -/
def Outcome.value? {α : Type} : Outcome α → Option α
  | .ok v _ => some v
  | .fault _ => none

/-- Sequencing: a fault stops the run. -/
def Outcome.bind {α β : Type} (o : Outcome α) (f : α → World → Outcome β) : Outcome β :=
  match o with
  | .ok v w => f v w
  | .fault w => .fault w

/-- The expression `*p`: undefined for a null pointer, otherwise it designates the object at
address `p`, which is identified by that address. -/
def deref (p : Nat) (w : World) : Outcome Nat :=
  if p = nullptr then .fault w else .ok p w

/-- Records a call in the history. -/
def World.record (w : World) (c : Call) : World :=
  { w with trace := w.trace ++ [c] }

/-- Source: `void SetJVM(JavaVM* jvm) { s_JVM = jvm; }` -/
def SetJVM (jvm : Nat) (w : World) : World :=
  { w with s_JVM := jvm }

/-- Source: `JavaVM* GetJVM() { return s_JVM; }` -/
def GetJVM (w : World) : Nat :=
  w.s_JVM

/-- Source:
```
static JNIEnv* GetEnvironment()
{
  JNIEnv* env = nullptr;
  if (s_JVM != nullptr)
    s_JVM->AttachCurrentThread(&env, nullptr);
  return *env;
}
```
The return statement dereferences `env`.
-/
def GetEnvironment (rt : Runtime) (w : World) : Outcome Nat :=
  let env := nullptr
  if w.s_JVM ≠ nullptr then
    let env := rt.AttachCurrentThread w.trace w.s_JVM
    deref env (w.record (Call.AttachCurrentThread w.s_JVM))
  else
    deref env w

/-- The member call `env.FindClass(className)` on an environment object. -/
def callFindClass (rt : Runtime) (env : Nat) (className : String) (w : World) : Outcome Nat :=
  .ok (rt.FindClass w.trace env className) (w.record (Call.FindClass env className))

/-- The member call `env.NewGlobalRef(obj)` on an environment object. -/
def callNewGlobalRef (rt : Runtime) (env : Nat) (obj : Nat) (w : World) : Outcome Nat :=
  .ok (rt.NewGlobalRef w.trace env obj) (w.record (Call.NewGlobalRef env obj))

/-- The member call `env.DeleteGlobalRef(obj)` on an environment object. -/
def callDeleteGlobalRef (env : Nat) (obj : Nat) (w : World) : Outcome Unit :=
  .ok () (w.record (Call.DeleteGlobalRef env obj))

/-- The member call `env.DeleteLocalRef(obj)` on an environment object. -/
def callDeleteLocalRef (env : Nat) (obj : Nat) (w : World) : Outcome Unit :=
  .ok () (w.record (Call.DeleteLocalRef env obj))

/-- Class `ManagedPeer` of the header, defined as `JNIManagedPeer` in the implementation
file: `jobject m_Object;` -/
structure JNIManagedPeer where
  m_Object : Nat
  deriving DecidableEq, Repr

/-- Source: `JNIEnv& JNIManagedPeer::Env() { return *GetEnvironment(); }` -/
def JNIManagedPeer.Env (rt : Runtime) (w : World) : Outcome Nat :=
  (GetEnvironment rt w).bind deref

/-- Source: `JNIManagedPeer::JNIManagedPeer() : m_Object(nullptr) { }` -/
def JNIManagedPeer.ctorDefault (w : World) : Outcome JNIManagedPeer :=
  .ok { m_Object := nullptr } w

/-- Source:
```
JNIManagedPeer::JNIManagedPeer(jobject object)
  : m_Object(object)
{
  Env().NewGlobalRef(object);
}
```
The member is initialised from the parameter; the value of the call is discarded.
-/
def JNIManagedPeer.ctor (rt : Runtime) (object : Nat) (w : World) : Outcome JNIManagedPeer :=
  let self : JNIManagedPeer := { m_Object := object }
  ((JNIManagedPeer.Env rt w).bind fun env w1 =>
    callNewGlobalRef rt env object w1).bind fun _ w2 =>
      .ok self w2

/-- Source:
```
JNIManagedPeer::~JNIManagedPeer()
{
  if (m_Object != nullptr)
    Env().DeleteGlobalRef(m_Object);
}
```
-/
def JNIManagedPeer.dtor (rt : Runtime) (self : JNIManagedPeer) (w : World) : Outcome Unit :=
  if self.m_Object ≠ nullptr then
    (JNIManagedPeer.Env rt w).bind fun env w1 =>
      callDeleteGlobalRef env self.m_Object w1
  else
    .ok () w

/-- Source: `jobject Object() const { return m_Object; }` -/
def JNIManagedPeer.Object (self : JNIManagedPeer) : Nat :=
  self.m_Object

/-- Source: `struct JClass`: `jclass m_Class;` -/
structure JClass where
  m_Class : Nat
  deriving DecidableEq, Repr

/-- Source:
```
JClass::JClass(const char* className)
{
  JNIEnv* env = GetEnvironment();
  jclass clazz = env->FindClass(className);
  m_Class = env->NewGlobalRef(jclazz);
  env->DeleteLocalRef(clazz);
}
```
Each `env->` dereferences `env`. The argument of `NewGlobalRef` is the name `jclazz`, which
is declared nowhere in the source: the value it denotes is the parameter `jclazz`. The local
`clazz` is the argument of `DeleteLocalRef` only.
-/
def JClass.ctor (rt : Runtime) (jclazz : Nat) (className : String) (w : World) :
    Outcome JClass :=
  (GetEnvironment rt w).bind fun env w0 =>
    ((deref env w0).bind fun e w1 => callFindClass rt e className w1).bind fun clazz w2 =>
      ((deref env w2).bind fun e w3 => callNewGlobalRef rt e jclazz w3).bind fun g w4 =>
        let self : JClass := { m_Class := g }
        ((deref env w4).bind fun e w5 => callDeleteLocalRef e clazz w5).bind fun _ w6 =>
          .ok self w6

/-- Source:
```
JClass::~JClass()
{
  GetEnvironment()->DeleteGlobalRef(m_Class);
}
```
-/
def JClass.dtor (rt : Runtime) (self : JClass) (w : World) : Outcome Unit :=
  (GetEnvironment rt w).bind fun env w0 =>
    (deref env w0).bind fun e w1 => callDeleteGlobalRef e self.m_Class w1

/-- Source: `operator jclass() const { return m_Class; }` -/
def JClass.toJclass (self : JClass) : Nat :=
  self.m_Class

/-! ## Usage scenarios and observers -/

/-- Whether a call is a reference upgrade. -/
def Call.isNewGlobalRef : Call → Bool
  | .NewGlobalRef _ _ => true
  | _ => false

/-- Whether a call is a durable-reference release. -/
def Call.isDeleteGlobalRef : Call → Bool
  | .DeleteGlobalRef _ _ => true
  | _ => false

/-- Whether a call is a local-reference reclaim. -/
def Call.isDeleteLocalRef : Call → Bool
  | .DeleteLocalRef _ _ => true
  | _ => false

/-- Number of upgrade calls in a history. -/
def upgrades (tr : List Call) : Nat := tr.countP Call.isNewGlobalRef

/-- Number of release calls in a history. -/
def releases (tr : List Call) : Nat := tr.countP Call.isDeleteGlobalRef

/-- The calls made between world `w` and a later world `w1`. -/
def newCalls (w w1 : World) : List Call := w1.trace.drop w.trace.length

/-- Scenario: a peer is constructed from `object`, `Object()` is read, the peer is destroyed.
The value is what `Object()` returned. -/
def JNIManagedPeer.lifecycle (rt : Runtime) (object : Nat) (w : World) : Outcome Nat :=
  (JNIManagedPeer.ctor rt object w).bind fun self w1 =>
    let o := self.Object
    (JNIManagedPeer.dtor rt self w1).bind fun _ w2 => .ok o w2

/-- Scenario: a peer is default-constructed, `Object()` is read `n` times, the peer is
destroyed. The value lists what the reads returned. -/
def JNIManagedPeer.lifecycleDefault (rt : Runtime) (n : Nat) (w : World) : Outcome (List Nat) :=
  (JNIManagedPeer.ctorDefault w).bind fun self w1 =>
    let reads := List.replicate n self.Object
    (JNIManagedPeer.dtor rt self w1).bind fun _ w2 => .ok reads w2

/-- Constructor arguments of a wrapper of either kind. -/
inductive HandleArg where
  | object (t : Nat)
  | klass (className : String)
  deriving DecidableEq, Repr

/-- A constructed wrapper of either kind. -/
inductive Handle where
  | object (p : JNIManagedPeer)
  | klass (c : JClass)
  deriving DecidableEq, Repr

/-- The reference a wrapper holds. -/
def Handle.ref : Handle → Nat
  | .object p => p.Object
  | .klass c => c.toJclass

/-- Arguments that give a bound wrapper: a non-null object reference, or a class name. -/
def HandleArg.bound : HandleArg → Prop
  | .object t => t ≠ nullptr
  | .klass _ => True

instance (a : HandleArg) : Decidable a.bound := by
  cases a <;> unfold HandleArg.bound <;> infer_instance

/-- Runs the constructor matching the arguments. -/
def HandleArg.construct (rt : Runtime) (jclazz : Nat) : HandleArg → World → Outcome Handle
  | .object t, w => (JNIManagedPeer.ctor rt t w).bind fun p w1 => .ok (.object p) w1
  | .klass n, w => (JClass.ctor rt jclazz n w).bind fun c w1 => .ok (.klass c) w1

/-- Runs the destructor of the wrapper. -/
def Handle.destroy (rt : Runtime) : Handle → World → Outcome Unit
  | .object p, w => JNIManagedPeer.dtor rt p w
  | .klass c, w => JClass.dtor rt c w

/-- Scenario: each wrapper is constructed and destroyed before the next one is constructed. -/
def oneByOne (rt : Runtime) (jclazz : Nat) : List HandleArg → World → Outcome Unit
  | [], w => .ok () w
  | a :: rest, w =>
    ((a.construct rt jclazz w).bind fun h w1 => h.destroy rt w1).bind fun _ w2 =>
      oneByOne rt jclazz rest w2

/-- Constructs the wrappers in order. -/
def constructAll (rt : Runtime) (jclazz : Nat) :
    List HandleArg → World → Outcome (List Handle)
  | [], w => .ok [] w
  | a :: rest, w =>
    (a.construct rt jclazz w).bind fun h w1 =>
      (constructAll rt jclazz rest w1).bind fun hs w2 => .ok (h :: hs) w2

/-- Destroys the wrappers, the last constructed first, as at the end of a scope. -/
def destroyAll (rt : Runtime) : List Handle → World → Outcome Unit
  | [], w => .ok () w
  | h :: hs, w => (destroyAll rt hs w).bind fun _ w1 => h.destroy rt w1

/-- Scenario: all wrappers live in one scope; they are destroyed when it ends. -/
def sameScope (rt : Runtime) (jclazz : Nat) (args : List HandleArg) (w : World) :
    Outcome Unit :=
  (constructAll rt jclazz args w).bind fun hs w1 => destroyAll rt hs w1

/-- A wrapper that holds a reference its destructor will release: an object wrapper with a
non-null member, or any class wrapper (its destructor has no null check). -/
def Handle.bound : Handle → Prop
  | .object p => p.m_Object ≠ nullptr
  | .klass _ => True

instance (h : Handle) : Decidable h.bound := by
  cases h <;> unfold Handle.bound <;> infer_instance

/-- The environment the runtime hands out if the thread is attached now. -/
def attachedEnv (rt : Runtime) (w : World) : Nat :=
  rt.AttachCurrentThread w.trace w.s_JVM

/-- The answer of the class lookup made right after attaching in world `w`. -/
def lookedUp (rt : Runtime) (className : String) (w : World) : Nat :=
  rt.FindClass (w.trace ++ [Call.AttachCurrentThread w.s_JVM]) (attachedEnv rt w) className

/-- The answer of the upgrade of `r` made right after the attach and the lookup of `className`
in world `w`. -/
def upgradedAfterLookup (rt : Runtime) (className : String) (r : Nat) (w : World) : Nat :=
  rt.NewGlobalRef
    (w.trace ++ [Call.AttachCurrentThread w.s_JVM, Call.FindClass (attachedEnv rt w) className])
    (attachedEnv rt w) r

/-- World `w1` continues `w` without any call satisfying `p`: the registry is the same and
the history of `w1` is the one of `w` followed by calls none of which satisfies `p`. -/
def Continues (p : Call → Bool) (w w1 : World) : Prop :=
  w1.s_JVM = w.s_JVM ∧ ∃ d : List Call, w1.trace = w.trace ++ d ∧ d.countP p = 0

/-- A runtime handle on which every attachment succeeds. -/
def Attachable (rt : Runtime) (jvm : Nat) : Prop :=
  jvm ≠ nullptr ∧ ∀ tr : List Call, rt.AttachCurrentThread tr jvm ≠ nullptr

/-- A sample runtime: attaching to runtime `j` gives environment `j + 100`; only
`java/lang/String` resolves, to the local reference `7`; upgrading a non-null reference `r`
gives `r + 1000`, upgrading null gives null. -/
def sampleRuntime : Runtime where
  AttachCurrentThread := fun _ jvm => jvm + 100
  FindClass := fun _ _ className => if className = "java/lang/String" then 7 else 0
  NewGlobalRef := fun _ _ obj => if obj = 0 then 0 else obj + 1000

/-- A world in which `SetJVM(1)` has been called and nothing else. -/
def sampleWorld : World := SetJVM 1 World.init

/-- A runtime that attaches the thread as long as no call has been made and refuses every
later attachment (the environment it leaves is null); otherwise like the sample runtime. -/
def attachOnceRuntime : Runtime where
  AttachCurrentThread := fun tr jvm => if tr = [] then jvm + 100 else 0
  FindClass := sampleRuntime.FindClass
  NewGlobalRef := sampleRuntime.NewGlobalRef


/-! ## Basic facts about the operations -/

theorem record_trace (w : World) (c : Call) : (w.record c).trace = w.trace ++ [c] := rfl

theorem record_s_JVM (w : World) (c : Call) : (w.record c).s_JVM = w.s_JVM := rfl

/-- With a runtime installed and a successful attachment, `GetEnvironment` completes with the
attached environment after one attach call. -/
theorem GetEnvironment_attached (rt : Runtime) (w : World) (hjvm : w.s_JVM ≠ nullptr)
    (hatt : rt.AttachCurrentThread w.trace w.s_JVM ≠ nullptr) :
    GetEnvironment rt w
      = .ok (rt.AttachCurrentThread w.trace w.s_JVM)
          (w.record (Call.AttachCurrentThread w.s_JVM)) := by
  simp [GetEnvironment, deref, hjvm, hatt]

/-- Under the same conditions `Env()` gives the same environment. -/
theorem Env_attached (rt : Runtime) (w : World) (hjvm : w.s_JVM ≠ nullptr)
    (hatt : rt.AttachCurrentThread w.trace w.s_JVM ≠ nullptr) :
    JNIManagedPeer.Env rt w
      = .ok (rt.AttachCurrentThread w.trace w.s_JVM)
          (w.record (Call.AttachCurrentThread w.s_JVM)) := by
  simp [JNIManagedPeer.Env, GetEnvironment_attached rt w hjvm hatt, Outcome.bind, deref, hatt]

/-- Whatever the outcome, `GetEnvironment` leaves `s_JVM` alone and adds at most one call,
an attach call on the installed runtime. -/
theorem GetEnvironment_world (rt : Runtime) (w : World) :
    (GetEnvironment rt w).world.s_JVM = w.s_JVM ∧
    (GetEnvironment rt w).world.trace
      = w.trace ++ (if w.s_JVM ≠ nullptr then [Call.AttachCurrentThread w.s_JVM] else []) := by
  unfold GetEnvironment deref
  by_cases h : w.s_JVM = nullptr
  · simp [h, Outcome.world]
  · by_cases h2 : rt.AttachCurrentThread w.trace w.s_JVM = nullptr
    · simp [h, h2, Outcome.world, World.record]
    · simp [h, h2, Outcome.world, World.record]

/-- The peer constructor, with a runtime installed and a successful attachment. -/
theorem ctor_attached (rt : Runtime) (object : Nat) (w : World) (hjvm : w.s_JVM ≠ nullptr)
    (hatt : rt.AttachCurrentThread w.trace w.s_JVM ≠ nullptr) :
    JNIManagedPeer.ctor rt object w
      = .ok { m_Object := object }
          ((w.record (Call.AttachCurrentThread w.s_JVM)).record
            (Call.NewGlobalRef (rt.AttachCurrentThread w.trace w.s_JVM) object)) := by
  simp [JNIManagedPeer.ctor, Env_attached rt w hjvm hatt, Outcome.bind, callNewGlobalRef]

/-- The peer destructor on a non-null member, with a runtime installed and a successful
attachment. -/
theorem dtor_attached (rt : Runtime) (self : JNIManagedPeer) (w : World)
    (hobj : self.m_Object ≠ nullptr) (hjvm : w.s_JVM ≠ nullptr)
    (hatt : rt.AttachCurrentThread w.trace w.s_JVM ≠ nullptr) :
    JNIManagedPeer.dtor rt self w
      = .ok ()
          ((w.record (Call.AttachCurrentThread w.s_JVM)).record
            (Call.DeleteGlobalRef (rt.AttachCurrentThread w.trace w.s_JVM) self.m_Object)) := by
  simp [JNIManagedPeer.dtor, hobj, Env_attached rt w hjvm hatt, Outcome.bind,
    callDeleteGlobalRef]

/-- The peer destructor on a null member does nothing. -/
theorem dtor_null (rt : Runtime) (self : JNIManagedPeer) (w : World)
    (hobj : self.m_Object = nullptr) : JNIManagedPeer.dtor rt self w = .ok () w := by
  simp [JNIManagedPeer.dtor, hobj]

/-- The class-handle constructor, with a runtime installed and a successful attachment. -/
theorem JClass_ctor_attached (rt : Runtime) (jclazz : Nat) (className : String) (w : World)
    (hjvm : w.s_JVM ≠ nullptr)
    (hatt : rt.AttachCurrentThread w.trace w.s_JVM ≠ nullptr) :
    JClass.ctor rt jclazz className w
      = .ok
          { m_Class :=
              rt.NewGlobalRef
                (w.trace ++ [Call.AttachCurrentThread w.s_JVM,
                  Call.FindClass (rt.AttachCurrentThread w.trace w.s_JVM) className])
                (rt.AttachCurrentThread w.trace w.s_JVM) jclazz }
          { s_JVM := w.s_JVM
            trace := w.trace ++
              [Call.AttachCurrentThread w.s_JVM,
               Call.FindClass (rt.AttachCurrentThread w.trace w.s_JVM) className,
               Call.NewGlobalRef (rt.AttachCurrentThread w.trace w.s_JVM) jclazz,
               Call.DeleteLocalRef (rt.AttachCurrentThread w.trace w.s_JVM)
                 (rt.FindClass (w.trace ++ [Call.AttachCurrentThread w.s_JVM])
                   (rt.AttachCurrentThread w.trace w.s_JVM) className)] } := by
  simp [JClass.ctor, GetEnvironment_attached rt w hjvm hatt, Outcome.bind, deref, hatt,
    callFindClass, callNewGlobalRef, callDeleteLocalRef, World.record]

/-- The class-handle destructor, with a runtime installed and a successful attachment. -/
theorem JClass_dtor_attached (rt : Runtime) (self : JClass) (w : World)
    (hjvm : w.s_JVM ≠ nullptr)
    (hatt : rt.AttachCurrentThread w.trace w.s_JVM ≠ nullptr) :
    JClass.dtor rt self w
      = .ok ()
          ((w.record (Call.AttachCurrentThread w.s_JVM)).record
            (Call.DeleteGlobalRef (rt.AttachCurrentThread w.trace w.s_JVM) self.m_Class)) := by
  simp [JClass.dtor, GetEnvironment_attached rt w hjvm hatt, Outcome.bind, deref, hatt,
    callDeleteGlobalRef]

/-! ## The object wrapper stores its constructor argument -/

/-- C1 (defect in the code): the constructor keeps the caller's transient handle. For every
runtime, argument and world, a completed construction yields a peer whose member is the
argument itself; at the sample input the upgrade of `5` returns `1005`, the call is made, and
`Object()` nevertheless returns `5`. -/
theorem ctor_keeps_transient_handle :
    (∀ (rt : Runtime) (object : Nat) (w : World),
      (JNIManagedPeer.ctor rt object w).value? = none ∨
      (JNIManagedPeer.ctor rt object w).value? = some { m_Object := object }) ∧
    sampleRuntime.NewGlobalRef [Call.AttachCurrentThread 1] 101 5 = 1005 ∧
    JNIManagedPeer.ctor sampleRuntime 5 sampleWorld
      = .ok { m_Object := 5 }
          { s_JVM := 1, trace := [Call.AttachCurrentThread 1, Call.NewGlobalRef 101 5] } ∧
    (JNIManagedPeer.ctor sampleRuntime 5 sampleWorld).value?.map JNIManagedPeer.Object
      = some 5 := by
  refine ⟨?_, by decide, by decide, by decide⟩
  intro rt object w
  unfold JNIManagedPeer.ctor JNIManagedPeer.Env
  cases h : GetEnvironment rt w with
  | fault w1 => simp [Outcome.bind, Outcome.value?]
  | ok env w1 =>
    by_cases he : env = nullptr
    · simp [Outcome.bind, Outcome.value?, deref, he]
    · simp [Outcome.bind, Outcome.value?, deref, he, callNewGlobalRef]

/-- C3 (defect in the code, the one of C1): the destructor releases the member, which is the
caller's transient handle. At the sample input the upgrade of `5` returns `1005`; the whole
life of the peer makes exactly the calls attach, upgrade of `5`, attach, release of `5`, so
the durable handle `1005` is never released and the handle `5`, which the wrapper did not
create, is. -/
theorem dtor_releases_transient_handle :
    sampleRuntime.NewGlobalRef [Call.AttachCurrentThread 1] 101 5 = 1005 ∧
    JNIManagedPeer.lifecycle sampleRuntime 5 sampleWorld
      = .ok 5
          { s_JVM := 1
            trace := [Call.AttachCurrentThread 1, Call.NewGlobalRef 101 5,
                      Call.AttachCurrentThread 1, Call.DeleteGlobalRef 101 5] } ∧
    Call.DeleteGlobalRef 101 1005
      ∉ (JNIManagedPeer.lifecycle sampleRuntime 5 sampleWorld).world.trace ∧
    Call.DeleteGlobalRef 101 5
      ∈ (JNIManagedPeer.lifecycle sampleRuntime 5 sampleWorld).world.trace := by
  refine ⟨by decide, by decide, by decide, by decide⟩

/-! ## The empty object wrapper -/

/-- C5: in every world (runtime installed or not) and for every runtime, a default-constructed
peer has `Object()` null, and default construction, `n` reads of `Object()` and destruction
complete in the very world they started in: no call of any kind reaches the runtime. -/
theorem default_peer_makes_no_call (rt : Runtime) (n : Nat) (w : World) :
    JNIManagedPeer.ctorDefault w = .ok { m_Object := nullptr } w ∧
    (JNIManagedPeer.ctorDefault w).value?.map JNIManagedPeer.Object = some nullptr ∧
    JNIManagedPeer.lifecycleDefault rt n w = .ok (List.replicate n nullptr) w ∧
    newCalls w (JNIManagedPeer.lifecycleDefault rt n w).world = [] := by
  have h : JNIManagedPeer.lifecycleDefault rt n w = .ok (List.replicate n nullptr) w := by
    simp [JNIManagedPeer.lifecycleDefault, JNIManagedPeer.ctorDefault, Outcome.bind,
      JNIManagedPeer.dtor, JNIManagedPeer.Object]
  refine ⟨rfl, rfl, h, ?_⟩
  simp [h, newCalls, Outcome.world]

/-! ## The registry and the environment accessor -/

/-- C7: after `SetJVM(A)` then `SetJVM(B)` with `B` non-null, `GetJVM()` is `B`; in every later
world that still has this registry value, whatever calls happened in between,
`GetEnvironment` adds exactly one call, an attach on `B`, keeps the registry, and (for `A`
different from `B`) makes no attach on `A`; the run is the one obtained without `SetJVM(A)`. -/
theorem registry_overwrite (rt : Runtime) (A B : Nat) (w : World) (hB : B ≠ nullptr) :
    GetJVM (SetJVM B (SetJVM A w)) = B ∧
    SetJVM B (SetJVM A w) = SetJVM B w ∧
    GetEnvironment rt (SetJVM B (SetJVM A w)) = GetEnvironment rt (SetJVM B w) ∧
    ∀ tr : List Call,
      (GetEnvironment rt { SetJVM B (SetJVM A w) with trace := tr }).world.trace
        = tr ++ [Call.AttachCurrentThread B] ∧
      (GetEnvironment rt { SetJVM B (SetJVM A w) with trace := tr }).world.s_JVM = B ∧
      (A ≠ B → Call.AttachCurrentThread A ∉
        newCalls { SetJVM B (SetJVM A w) with trace := tr }
          (GetEnvironment rt { SetJVM B (SetJVM A w) with trace := tr }).world) := by
  refine ⟨rfl, rfl, rfl, ?_⟩
  intro tr
  have h := GetEnvironment_world rt { SetJVM B (SetJVM A w) with trace := tr }
  have hs : ({ SetJVM B (SetJVM A w) with trace := tr } : World).s_JVM = B := rfl
  rw [hs] at h
  simp only [ne_eq, hB, not_false_eq_true, if_true] at h
  refine ⟨h.2, h.1, ?_⟩
  intro hAB
  simp [newCalls, h.2, hAB]

/-- Instance of C7 with `A = 1`, `B = 2` from the initial world and the sample runtime. -/
theorem registry_overwrite_witness :
    (2 : Nat) ≠ nullptr ∧
    GetJVM (SetJVM 2 (SetJVM 1 World.init)) = 2 ∧
    (GetEnvironment sampleRuntime (SetJVM 2 (SetJVM 1 World.init))).world.trace
      = [Call.AttachCurrentThread 2] :=
  ⟨by decide, (registry_overwrite sampleRuntime 1 2 World.init (by decide)).1,
    ((registry_overwrite sampleRuntime 1 2 World.init (by decide)).2.2.2 []).1⟩

/-- C8 (defect in the code): with no runtime installed, whatever the runtime and the history,
`GetEnvironment` makes no call and then reaches `return *env` with `env` null: the run ends in
a null dereference inside `GetEnvironment`, it does not return a null handle. -/
theorem GetEnvironment_unset_dereferences_null (rt : Runtime) (tr : List Call) :
    GetEnvironment rt { s_JVM := nullptr, trace := tr }
      = .fault { s_JVM := nullptr, trace := tr } ∧
    (GetEnvironment rt { s_JVM := nullptr, trace := tr }).value? = none ∧
    GetEnvironment rt World.init = .fault World.init := by
  refine ⟨?_, ?_, ?_⟩ <;> simp [GetEnvironment, deref, Outcome.value?, World.init]

/-! ## Class-handle construction -/

/-- The upgrade calls of a class-handle construction, in every case: none when the run stops
before the upgrade, otherwise the single upgrade of the value of `jclazz`. -/
theorem JClass_ctor_upgrades (rt : Runtime) (jclazz : Nat) (className : String) (w : World) :
    (newCalls w (JClass.ctor rt jclazz className w).world).filter Call.isNewGlobalRef = [] ∨
    (newCalls w (JClass.ctor rt jclazz className w).world).filter Call.isNewGlobalRef
      = [Call.NewGlobalRef (attachedEnv rt w) jclazz] := by
  by_cases hjvm : w.s_JVM = nullptr
  · left
    simp [JClass.ctor, GetEnvironment, hjvm, deref, Outcome.bind, Outcome.world, newCalls]
  · by_cases hatt : rt.AttachCurrentThread w.trace w.s_JVM = nullptr
    · left
      simp [JClass.ctor, GetEnvironment, hjvm, hatt, deref, Outcome.bind, Outcome.world,
        newCalls, World.record, Call.isNewGlobalRef]
    · right
      rw [JClass_ctor_attached rt jclazz className w hjvm hatt]
      simp [Outcome.world, newCalls, Call.isNewGlobalRef, attachedEnv]

/-- C6 (defect in the code): the upgrade is not applied to the lookup result. For every
runtime, class name and world, the only upgrade call a construction can make has the value
of the undeclared name `jclazz` as its argument, whatever the lookup returned. At the
sample input `java/lang/String` resolves to `7`; with `jclazz` denoting `9` the calls are
attach, lookup, upgrade of `9`, reclaim of `7`: no upgrade of `7` is made, and the conversion
to `jclass` gives `1009`, the upgrade of `9`, not `1007`, the upgrade of the lookup result. -/
theorem JClass_ctor_upgrades_jclazz :
    (∀ (rt : Runtime) (jclazz : Nat) (className : String) (w : World),
      (newCalls w (JClass.ctor rt jclazz className w).world).filter Call.isNewGlobalRef = [] ∨
      (newCalls w (JClass.ctor rt jclazz className w).world).filter Call.isNewGlobalRef
        = [Call.NewGlobalRef (attachedEnv rt w) jclazz]) ∧
    lookedUp sampleRuntime "java/lang/String" sampleWorld = 7 ∧
    upgradedAfterLookup sampleRuntime "java/lang/String" 7 sampleWorld = 1007 ∧
    JClass.ctor sampleRuntime 9 "java/lang/String" sampleWorld
      = .ok { m_Class := 1009 }
          { s_JVM := 1
            trace := [Call.AttachCurrentThread 1, Call.FindClass 101 "java/lang/String",
                      Call.NewGlobalRef 101 9, Call.DeleteLocalRef 101 7] } ∧
    Call.NewGlobalRef 101 7
      ∉ (JClass.ctor sampleRuntime 9 "java/lang/String" sampleWorld).world.trace ∧
    (JClass.ctor sampleRuntime 9 "java/lang/String" sampleWorld).value?.map JClass.toJclass
      = some 1009 := by
  refine ⟨fun rt jclazz className w => JClass_ctor_upgrades rt jclazz className w,
    by decide, by decide, by decide, by decide, by decide⟩

/-- C2 (the claim fails on the code): the sample runtime does not resolve `no/such/Class`
(the lookup returns null), yet, whatever `jclazz` denotes, construction completes normally
and yields a constructed handle. -/
theorem JClass_ctor_unresolved_completes :
    lookedUp sampleRuntime "no/such/Class" sampleWorld = nullptr ∧
    (∀ jclazz : Nat,
      JClass.ctor sampleRuntime jclazz "no/such/Class" sampleWorld
        = .ok { m_Class := sampleRuntime.NewGlobalRef [] 101 jclazz }
            { s_JVM := 1
              trace := [Call.AttachCurrentThread 1, Call.FindClass 101 "no/such/Class",
                        Call.NewGlobalRef 101 jclazz, Call.DeleteLocalRef 101 nullptr] }) ∧
    (∀ jclazz : Nat,
      (JClass.ctor sampleRuntime jclazz "no/such/Class" sampleWorld).value? ≠ none) := by
  have h : ∀ jclazz : Nat,
      JClass.ctor sampleRuntime jclazz "no/such/Class" sampleWorld
        = .ok { m_Class := sampleRuntime.NewGlobalRef [] 101 jclazz }
            { s_JVM := 1
              trace := [Call.AttachCurrentThread 1, Call.FindClass 101 "no/such/Class",
                        Call.NewGlobalRef 101 jclazz, Call.DeleteLocalRef 101 nullptr] } := by
    intro jclazz
    rw [JClass_ctor_attached sampleRuntime jclazz "no/such/Class" sampleWorld
      (by decide) (by decide)]
    rfl
  refine ⟨by decide, h, fun jclazz => ?_⟩
  rw [h jclazz]
  simp [Outcome.value?]

/-- C2 (as amended): with a runtime installed and the attachment succeeding, for every class
name whose lookup returns null, and whatever `jclazz` denotes, construction completes
normally and raises nothing: a constructed handle is produced, the registry is unchanged, and
the calls made, upgrade calls apart, are exactly the attach, the lookup of the name and the
reclaim of the null lookup result. -/
theorem JClass_ctor_unresolved (rt : Runtime) (jclazz : Nat) (className : String) (w : World)
    (hjvm : w.s_JVM ≠ nullptr) (hatt : attachedEnv rt w ≠ nullptr)
    (hfail : lookedUp rt className w = nullptr) :
    ∃ (self : JClass) (w1 : World),
      JClass.ctor rt jclazz className w = .ok self w1 ∧
      (JClass.ctor rt jclazz className w).value? = some self ∧
      w1.s_JVM = w.s_JVM ∧
      w1.trace = w.trace ++ newCalls w w1 ∧
      (newCalls w w1).filter (fun c => !c.isNewGlobalRef)
        = [Call.AttachCurrentThread w.s_JVM,
           Call.FindClass (attachedEnv rt w) className,
           Call.DeleteLocalRef (attachedEnv rt w) nullptr] := by
  have h := JClass_ctor_attached rt jclazz className w hjvm hatt
  unfold lookedUp attachedEnv at hfail
  rw [hfail] at h
  refine ⟨_, _, h, ?_, rfl, ?_, ?_⟩
  · rw [h]; rfl
  · simp [newCalls]
  · simp [newCalls, Call.isNewGlobalRef, attachedEnv]

/-- Instance of the amended C2: `no/such/Class` with the sample runtime and `jclazz`
denoting `9`. -/
theorem JClass_ctor_unresolved_witness :
    sampleWorld.s_JVM ≠ nullptr ∧ attachedEnv sampleRuntime sampleWorld ≠ nullptr ∧
    lookedUp sampleRuntime "no/such/Class" sampleWorld = nullptr ∧
    ∃ (self : JClass) (w1 : World),
      JClass.ctor sampleRuntime 9 "no/such/Class" sampleWorld = .ok self w1 ∧
      (newCalls sampleWorld w1).filter (fun c => !c.isNewGlobalRef)
        = [Call.AttachCurrentThread 1, Call.FindClass 101 "no/such/Class",
           Call.DeleteLocalRef 101 nullptr] := by
  obtain ⟨self, w1, h1, _, _, _, h5⟩ :=
    JClass_ctor_unresolved sampleRuntime 9 "no/such/Class" sampleWorld
      (by decide) (by decide) (by decide)
  exact ⟨by decide, by decide, by decide, self, w1, h1, h5⟩

/-! ## Which calls an operation can add to the history -/

theorem Continues.refl (p : Call → Bool) (w : World) : Continues p w w :=
  ⟨rfl, [], by simp, rfl⟩

theorem Continues.trans {p : Call → Bool} {w w1 w2 : World}
    (h1 : Continues p w w1) (h2 : Continues p w1 w2) : Continues p w w2 := by
  obtain ⟨hs1, d1, ht1, hc1⟩ := h1
  obtain ⟨hs2, d2, ht2, hc2⟩ := h2
  refine ⟨hs2.trans hs1, d1 ++ d2, ?_, ?_⟩
  · rw [ht2, ht1, List.append_assoc]
  · rw [List.countP_append, hc1, hc2]

theorem Continues.record {p : Call → Bool} (w : World) {c : Call} (h : p c = false) :
    Continues p w (w.record c) :=
  ⟨rfl, [c], rfl, by simp [h]⟩

theorem Continues.newCalls {p : Call → Bool} {w w1 : World} (h : Continues p w w1) :
    (newCalls w w1).countP p = 0 := by
  obtain ⟨_, d, ht, hc⟩ := h
  simp [JNI.newCalls, ht, hc]

theorem Continues.bind {α β : Type} {p : Call → Bool} {w : World} {o : Outcome α}
    {f : α → World → Outcome β} (h1 : Continues p w o.world)
    (h2 : ∀ v w1, Continues p w1 (f v w1).world) : Continues p w (o.bind f).world := by
  cases o with
  | fault w1 => exact h1
  | ok v w1 => exact Continues.trans h1 (h2 v w1)

theorem deref_continues (p : Call → Bool) (e : Nat) (w : World) :
    Continues p w (deref e w).world := by
  unfold deref
  split <;> exact Continues.refl p w

theorem GetEnvironment_continues {p : Call → Bool}
    (hp : ∀ j, p (Call.AttachCurrentThread j) = false) (rt : Runtime) (w : World) :
    Continues p w (GetEnvironment rt w).world := by
  unfold GetEnvironment
  split
  · exact Continues.trans (Continues.record w (hp _)) (deref_continues p _ _)
  · exact deref_continues p _ _

theorem Env_continues {p : Call → Bool}
    (hp : ∀ j, p (Call.AttachCurrentThread j) = false) (rt : Runtime) (w : World) :
    Continues p w (JNIManagedPeer.Env rt w).world :=
  Continues.bind (GetEnvironment_continues hp rt w) fun v w1 => deref_continues p v w1

theorem ctor_continues {p : Call → Bool}
    (hp : ∀ j, p (Call.AttachCurrentThread j) = false)
    (hn : ∀ e o, p (Call.NewGlobalRef e o) = false) (rt : Runtime) (object : Nat) (w : World) :
    Continues p w (JNIManagedPeer.ctor rt object w).world := by
  unfold JNIManagedPeer.ctor
  refine Continues.bind (Continues.bind (Env_continues hp rt w) fun v w1 => ?_) fun v w1 => ?_
  · exact Continues.record w1 (hn _ _)
  · exact Continues.refl p w1

theorem dtor_continues {p : Call → Bool}
    (hp : ∀ j, p (Call.AttachCurrentThread j) = false)
    (hd : ∀ e o, p (Call.DeleteGlobalRef e o) = false) (rt : Runtime) (self : JNIManagedPeer)
    (w : World) : Continues p w (JNIManagedPeer.dtor rt self w).world := by
  unfold JNIManagedPeer.dtor
  split
  · exact Continues.bind (Env_continues hp rt w) fun v w1 => Continues.record w1 (hd _ _)
  · exact Continues.refl p w

theorem lifecycle_continues {p : Call → Bool}
    (hp : ∀ j, p (Call.AttachCurrentThread j) = false)
    (hn : ∀ e o, p (Call.NewGlobalRef e o) = false)
    (hd : ∀ e o, p (Call.DeleteGlobalRef e o) = false) (rt : Runtime) (object : Nat)
    (w : World) : Continues p w (JNIManagedPeer.lifecycle rt object w).world := by
  unfold JNIManagedPeer.lifecycle
  refine Continues.bind (ctor_continues hp hn rt object w) fun self w1 => ?_
  exact Continues.bind (dtor_continues hp hd rt self w1) fun _ w2 => Continues.refl p w2

theorem JClass_dtor_continues {p : Call → Bool}
    (hp : ∀ j, p (Call.AttachCurrentThread j) = false)
    (hd : ∀ e o, p (Call.DeleteGlobalRef e o) = false) (rt : Runtime) (self : JClass)
    (w : World) : Continues p w (JClass.dtor rt self w).world := by
  unfold JClass.dtor
  refine Continues.bind (GetEnvironment_continues hp rt w) fun env w0 => ?_
  exact Continues.bind (deref_continues p env w0) fun e w1 => Continues.record w1 (hd _ _)

/-- The reclaim calls of a class-handle construction, in every case: none when the run stops
before the reclaim, otherwise the single reclaim of the lookup result. -/
theorem JClass_ctor_reclaims (rt : Runtime) (jclazz : Nat) (className : String)
    (w : World) :
    (newCalls w (JClass.ctor rt jclazz className w).world).filter Call.isDeleteLocalRef = [] ∨
    ((newCalls w (JClass.ctor rt jclazz className w).world).filter Call.isDeleteLocalRef
        = [Call.DeleteLocalRef (attachedEnv rt w) (lookedUp rt className w)] ∧
      Call.FindClass (attachedEnv rt w) className
        ∈ newCalls w (JClass.ctor rt jclazz className w).world) := by
  by_cases hjvm : w.s_JVM = nullptr
  · left
    simp [JClass.ctor, GetEnvironment, hjvm, deref, Outcome.bind, Outcome.world, newCalls]
  · by_cases hatt : rt.AttachCurrentThread w.trace w.s_JVM = nullptr
    · left
      simp [JClass.ctor, GetEnvironment, hjvm, hatt, deref, Outcome.bind, Outcome.world,
        newCalls, World.record, Call.isDeleteLocalRef]
    · right
      rw [JClass_ctor_attached rt jclazz className w hjvm hatt]
      simp [Outcome.world, newCalls, Call.isDeleteLocalRef, attachedEnv, lookedUp]

/-- C9: local-reference reclaim is never applied to a caller-supplied reference. For every
runtime and world, whatever the outcome: the life of an object wrapper (construction from any
`t`, `Object()`, destruction), and each of its steps alone, adds no reclaim call; neither do
default construction, `SetJVM`, `GetEnvironment`, `Env` and the class-handle destructor; and the
reclaim calls added by a class-handle construction, whatever `jclazz` denotes, are either
none or the single reclaim of the result of the lookup made in that same construction. -/
theorem reclaim_only_of_lookup_result (rt : Runtime) (w : World) :
    (∀ t : Nat,
      (newCalls w (JNIManagedPeer.lifecycle rt t w).world).countP Call.isDeleteLocalRef = 0) ∧
    (∀ t : Nat,
      (newCalls w (JNIManagedPeer.ctor rt t w).world).countP Call.isDeleteLocalRef = 0) ∧
    (∀ self : JNIManagedPeer,
      (newCalls w (JNIManagedPeer.dtor rt self w).world).countP Call.isDeleteLocalRef = 0) ∧
    (newCalls w (JNIManagedPeer.ctorDefault w).world).countP Call.isDeleteLocalRef = 0 ∧
    (∀ jvm : Nat, newCalls w (SetJVM jvm w) = []) ∧
    (newCalls w (GetEnvironment rt w).world).countP Call.isDeleteLocalRef = 0 ∧
    (newCalls w (JNIManagedPeer.Env rt w).world).countP Call.isDeleteLocalRef = 0 ∧
    (∀ self : JClass,
      (newCalls w (JClass.dtor rt self w).world).countP Call.isDeleteLocalRef = 0) ∧
    (∀ (jclazz : Nat) (className : String),
      (newCalls w (JClass.ctor rt jclazz className w).world).filter Call.isDeleteLocalRef = [] ∨
      ((newCalls w (JClass.ctor rt jclazz className w).world).filter Call.isDeleteLocalRef
          = [Call.DeleteLocalRef (attachedEnv rt w) (lookedUp rt className w)] ∧
        Call.FindClass (attachedEnv rt w) className
          ∈ newCalls w (JClass.ctor rt jclazz className w).world)) := by
  have hp : ∀ j, Call.isDeleteLocalRef (Call.AttachCurrentThread j) = false := fun _ => rfl
  have hn : ∀ e o, Call.isDeleteLocalRef (Call.NewGlobalRef e o) = false := fun _ _ => rfl
  have hd : ∀ e o, Call.isDeleteLocalRef (Call.DeleteGlobalRef e o) = false := fun _ _ => rfl
  refine ⟨fun t => (lifecycle_continues hp hn hd rt t w).newCalls,
    fun t => (ctor_continues hp hn rt t w).newCalls,
    fun self => (dtor_continues hp hd rt self w).newCalls, ?_, ?_,
    (GetEnvironment_continues hp rt w).newCalls, (Env_continues hp rt w).newCalls,
    fun self => (JClass_dtor_continues hp hd rt self w).newCalls,
    fun jclazz className => JClass_ctor_reclaims rt jclazz className w⟩
  · simp [JNIManagedPeer.ctorDefault, Outcome.world, newCalls]
  · intro jvm
    simp [SetJVM, newCalls]

/-! ## Counting releases -/

theorem releases_append (a b : List Call) : releases (a ++ b) = releases a + releases b := by
  simp [releases, List.countP_append]

theorem upgrades_append (a b : List Call) : upgrades (a ++ b) = upgrades a + upgrades b := by
  simp [upgrades, List.countP_append]

/-- Destruction of a bound wrapper on an attachable runtime: one attach, one release of the
held reference. -/
theorem destroy_bound (rt : Runtime) (h : Handle) (w : World) (hb : h.bound)
    (ha : Attachable rt w.s_JVM) :
    h.destroy rt w
      = .ok ()
          { s_JVM := w.s_JVM
            trace := w.trace ++
              [Call.AttachCurrentThread w.s_JVM,
               Call.DeleteGlobalRef (attachedEnv rt w) h.ref] } := by
  cases h with
  | object p =>
    simp only [Handle.destroy]
    rw [dtor_attached rt p w hb ha.1 (ha.2 _)]
    simp [World.record, attachedEnv, Handle.ref, JNIManagedPeer.Object]
  | klass c =>
    simp only [Handle.destroy]
    rw [JClass_dtor_attached rt c w ha.1 (ha.2 _)]
    simp [World.record, attachedEnv, Handle.ref, JClass.toJclass]

/-- Construction from bound arguments on an attachable runtime completes with a bound wrapper,
keeps the registry and releases nothing. -/
theorem construct_bound (rt : Runtime) (jclazz : Nat) (a : HandleArg) (w : World)
    (hb : a.bound)
    (ha : Attachable rt w.s_JVM) :
    ∃ (h : Handle) (w1 : World), a.construct rt jclazz w = .ok h w1 ∧ h.bound ∧
      w1.s_JVM = w.s_JVM ∧ releases w1.trace = releases w.trace := by
  cases a with
  | object t =>
    simp only [HandleArg.construct, ctor_attached rt t w ha.1 (ha.2 _), Outcome.bind]
    refine ⟨_, _, rfl, hb, rfl, ?_⟩
    simp [World.record, releases, List.countP_append, Call.isDeleteGlobalRef]
  | klass n =>
    simp only [HandleArg.construct, JClass_ctor_attached rt jclazz n w ha.1 (ha.2 _),
      Outcome.bind]
    refine ⟨_, _, rfl, trivial, rfl, ?_⟩
    simp [releases, List.countP_append, Call.isDeleteGlobalRef]

theorem destroy_bound_releases (rt : Runtime) (h : Handle) (w : World) (hb : h.bound)
    (ha : Attachable rt w.s_JVM) :
    ∃ w1 : World, h.destroy rt w = .ok () w1 ∧ w1.s_JVM = w.s_JVM ∧
      releases w1.trace = releases w.trace + 1 := by
  refine ⟨_, destroy_bound rt h w hb ha, rfl, ?_⟩
  simp [releases, List.countP_append, Call.isDeleteGlobalRef]

theorem oneByOne_releases (rt : Runtime) (jclazz : Nat) (args : List HandleArg) :
    ∀ w : World, Attachable rt w.s_JVM → (∀ a ∈ args, a.bound) →
      ∃ w1 : World, oneByOne rt jclazz args w = .ok () w1 ∧ w1.s_JVM = w.s_JVM ∧
        releases w1.trace = releases w.trace + args.length := by
  induction args with
  | nil => intro w _ _; exact ⟨w, rfl, rfl, rfl⟩
  | cons a rest ih =>
    intro w ha hb
    obtain ⟨h, w1, hc, hhb, hs1, hr1⟩ :=
      construct_bound rt jclazz a w (hb a (List.mem_cons_self _ _)) ha
    obtain ⟨w2, hd, hs2, hr2⟩ := destroy_bound_releases rt h w1 hhb (hs1 ▸ ha)
    have ha2 : Attachable rt w2.s_JVM := by rw [hs2, hs1]; exact ha
    obtain ⟨w3, ho, hs3, hr3⟩ := ih w2 ha2 (fun x hx => hb x (List.mem_cons_of_mem _ hx))
    refine ⟨w3, ?_, by rw [hs3, hs2, hs1], ?_⟩
    · simp [oneByOne, hc, hd, Outcome.bind, ho]
    · rw [hr3, hr2, hr1, List.length_cons]; omega

theorem constructAll_bound (rt : Runtime) (jclazz : Nat) (args : List HandleArg) :
    ∀ w : World, Attachable rt w.s_JVM → (∀ a ∈ args, a.bound) →
      ∃ (hs : List Handle) (w1 : World), constructAll rt jclazz args w = .ok hs w1 ∧
        hs.length = args.length ∧ (∀ h ∈ hs, h.bound) ∧ w1.s_JVM = w.s_JVM ∧
        releases w1.trace = releases w.trace := by
  induction args with
  | nil => intro w _ _; exact ⟨[], w, rfl, rfl, by simp, rfl, rfl⟩
  | cons a rest ih =>
    intro w ha hb
    obtain ⟨h, w1, hc, hhb, hs1, hr1⟩ :=
      construct_bound rt jclazz a w (hb a (List.mem_cons_self _ _)) ha
    obtain ⟨hs, w2, hcs, hlen, hall, hs2, hr2⟩ :=
      ih w1 (hs1 ▸ ha) (fun x hx => hb x (List.mem_cons_of_mem _ hx))
    refine ⟨h :: hs, w2, ?_, by simp [hlen], ?_, by rw [hs2, hs1], by rw [hr2, hr1]⟩
    · simp [constructAll, hc, hcs, Outcome.bind]
    · intro x hx
      rcases List.mem_cons.mp hx with rfl | hx
      · exact hhb
      · exact hall x hx

theorem destroyAll_releases (rt : Runtime) (hs : List Handle) :
    ∀ w : World, Attachable rt w.s_JVM → (∀ h ∈ hs, h.bound) →
      ∃ w1 : World, destroyAll rt hs w = .ok () w1 ∧ w1.s_JVM = w.s_JVM ∧
        releases w1.trace = releases w.trace + hs.length := by
  induction hs with
  | nil => intro w _ _; exact ⟨w, rfl, rfl, rfl⟩
  | cons h rest ih =>
    intro w ha hb
    obtain ⟨w1, hd1, hs1, hr1⟩ := ih w ha (fun x hx => hb x (List.mem_cons_of_mem _ hx))
    obtain ⟨w2, hd2, hs2, hr2⟩ :=
      destroy_bound_releases rt h w1 (hb h (List.mem_cons_self _ _)) (hs1 ▸ ha)
    refine ⟨w2, ?_, by rw [hs2, hs1], ?_⟩
    · simp [destroyAll, hd1, hd2, Outcome.bind]
    · rw [hr2, hr1, List.length_cons]; omega

/-- C4 (the claim fails on the code): the registry is set and a peer is constructed from the
non-null handle `5`, on a runtime that refuses every attachment after the first. The
destructor attaches, is left with a null environment and stops there: destruction makes no
release call, and constructing then destroying this one wrapper leaves zero release calls in
the history, not one. -/
theorem release_missed_when_attach_refused :
    sampleWorld.s_JVM ≠ nullptr ∧
    JNIManagedPeer.ctor attachOnceRuntime 5 sampleWorld
      = .ok { m_Object := 5 }
          { s_JVM := 1, trace := [Call.AttachCurrentThread 1, Call.NewGlobalRef 101 5] } ∧
    Handle.bound (Handle.object { m_Object := 5 }) ∧
    Handle.destroy attachOnceRuntime (Handle.object { m_Object := 5 })
        { s_JVM := 1, trace := [Call.AttachCurrentThread 1, Call.NewGlobalRef 101 5] }
      = .fault
          { s_JVM := 1
            trace := [Call.AttachCurrentThread 1, Call.NewGlobalRef 101 5,
                      Call.AttachCurrentThread 1] } ∧
    oneByOne attachOnceRuntime 9 [HandleArg.object 5] sampleWorld
      = .fault
          { s_JVM := 1
            trace := [Call.AttachCurrentThread 1, Call.NewGlobalRef 101 5,
                      Call.AttachCurrentThread 1] } ∧
    releases (oneByOne attachOnceRuntime 9 [HandleArg.object 5] sampleWorld).world.trace
      = 0 ∧
    releases (sameScope attachOnceRuntime 9 [HandleArg.object 5] sampleWorld).world.trace
      = 0 := by
  refine ⟨by decide, by decide, by decide, by decide, by decide, by decide, by decide⟩

/-- C4 (as amended): with a runtime installed on which every attachment succeeds, destruction
of any bound wrapper (object wrapper with a non-null member, or class wrapper) completes
after exactly two calls, one attach and one release of the held reference; and for every list
of `N` bound constructor arguments, whatever `jclazz` denotes, constructing and destroying
the `N` wrappers, either each before the next or all in one scope, completes with exactly `N`
more release calls in the history. -/
theorem single_release (rt : Runtime) (jclazz : Nat) (w : World) (args : List HandleArg)
    (hjvm : w.s_JVM ≠ nullptr)
    (hatt : ∀ tr : List Call, rt.AttachCurrentThread tr w.s_JVM ≠ nullptr)
    (hb : ∀ a ∈ args, a.bound) :
    (∀ h : Handle, h.bound →
      h.destroy rt w
        = .ok ()
            { s_JVM := w.s_JVM
              trace := w.trace ++
                [Call.AttachCurrentThread w.s_JVM,
                 Call.DeleteGlobalRef (attachedEnv rt w) h.ref] } ∧
      releases (newCalls w (h.destroy rt w).world) = 1) ∧
    (∃ w1 : World, oneByOne rt jclazz args w = .ok () w1 ∧
      releases w1.trace = releases w.trace + args.length) ∧
    (∃ w1 : World, sameScope rt jclazz args w = .ok () w1 ∧
      releases w1.trace = releases w.trace + args.length) := by
  have ha : Attachable rt w.s_JVM := ⟨hjvm, hatt⟩
  refine ⟨fun h hhb => ?_, ?_, ?_⟩
  · have hd := destroy_bound rt h w hhb ha
    refine ⟨hd, ?_⟩
    rw [hd]
    simp [Outcome.world, newCalls, releases, Call.isDeleteGlobalRef]
  · obtain ⟨w1, ho, _, hr⟩ := oneByOne_releases rt jclazz args w ha hb
    exact ⟨w1, ho, hr⟩
  · obtain ⟨hs, w1, hc, hlen, hall, hs1, hr1⟩ := constructAll_bound rt jclazz args w ha hb
    obtain ⟨w2, hd, _, hr2⟩ := destroyAll_releases rt hs w1 (hs1 ▸ ha) hall
    refine ⟨w2, ?_, ?_⟩
    · simp [sameScope, hc, Outcome.bind, hd]
    · rw [hr2, hr1, hlen]

/-- Instance of the amended C4: an object wrapper and a class wrapper with the sample runtime. -/
theorem single_release_witness :
    sampleWorld.s_JVM ≠ nullptr ∧
    (∀ tr : List Call, sampleRuntime.AttachCurrentThread tr sampleWorld.s_JVM ≠ nullptr) ∧
    (∀ a ∈ [HandleArg.object 5, HandleArg.klass "java/lang/String"], a.bound) ∧
    (∃ w1 : World,
      oneByOne sampleRuntime 9 [HandleArg.object 5, HandleArg.klass "java/lang/String"]
        sampleWorld = .ok () w1 ∧
      releases w1.trace = releases sampleWorld.trace + 2) ∧
    (∃ w1 : World,
      sameScope sampleRuntime 9 [HandleArg.object 5, HandleArg.klass "java/lang/String"]
        sampleWorld = .ok () w1 ∧
      releases w1.trace = releases sampleWorld.trace + 2) := by
  have h1 : sampleWorld.s_JVM ≠ nullptr := by decide
  have h2 : ∀ tr : List Call,
      sampleRuntime.AttachCurrentThread tr sampleWorld.s_JVM ≠ nullptr := by
    intro tr
    show (101 : Nat) ≠ 0
    decide
  have h3 : ∀ a ∈ [HandleArg.object 5, HandleArg.klass "java/lang/String"], a.bound := by
    intro a ha
    simp only [List.mem_cons, List.mem_singleton, List.not_mem_nil, or_false] at ha
    rcases ha with rfl | rfl
    · show (5 : Nat) ≠ nullptr
      decide
    · trivial
  exact ⟨h1, h2, h3,
    (single_release sampleRuntime 9 sampleWorld
      [HandleArg.object 5, HandleArg.klass "java/lang/String"] h1 h2 h3).2⟩

/-! ## Upgrades against releases over the life of an object wrapper -/

/-- C10 (the claim fails on the code): constructing a peer from the null handle makes one
upgrade call, and destroying it makes no release call: the counts differ. -/
theorem null_peer_unbalanced :
    JNIManagedPeer.ctor sampleRuntime nullptr sampleWorld
      = .ok { m_Object := nullptr }
          { s_JVM := 1
            trace := [Call.AttachCurrentThread 1, Call.NewGlobalRef 101 nullptr] } ∧
    JNIManagedPeer.dtor sampleRuntime { m_Object := nullptr }
        { s_JVM := 1, trace := [Call.AttachCurrentThread 1, Call.NewGlobalRef 101 nullptr] }
      = .ok ()
          { s_JVM := 1
            trace := [Call.AttachCurrentThread 1, Call.NewGlobalRef 101 nullptr] } ∧
    upgrades (newCalls sampleWorld
      (JNIManagedPeer.lifecycle sampleRuntime nullptr sampleWorld).world) = 1 ∧
    releases (newCalls sampleWorld
      (JNIManagedPeer.lifecycle sampleRuntime nullptr sampleWorld).world) = 0 := by
  refine ⟨by decide, by decide, by decide, by decide⟩

/-- C10 (as amended): with a runtime installed on which attachment succeeds, construction
from any handle `t` and the destruction that follows both complete; construction makes
exactly one upgrade call and no release call, destruction makes no upgrade call and, for
non-null `t`, exactly one release call, so that the two counts are equal for every non-null
`t`; for null `t` destruction makes no call at all. -/
theorem upgrade_release_balance (rt : Runtime) (t : Nat) (w : World)
    (hjvm : w.s_JVM ≠ nullptr)
    (hatt : ∀ tr : List Call, rt.AttachCurrentThread tr w.s_JVM ≠ nullptr) :
    ∃ (self : JNIManagedPeer) (w1 w2 : World),
      JNIManagedPeer.ctor rt t w = .ok self w1 ∧
      JNIManagedPeer.dtor rt self w1 = .ok () w2 ∧
      upgrades (newCalls w w1) = 1 ∧ releases (newCalls w w1) = 0 ∧
      upgrades (newCalls w1 w2) = 0 ∧
      releases (newCalls w1 w2) = (if t = nullptr then 0 else 1) ∧
      (t ≠ nullptr → upgrades (newCalls w w1) = releases (newCalls w1 w2)) ∧
      (t = nullptr → w2 = w1) := by
  have hc := ctor_attached rt t w hjvm (hatt _)
  by_cases ht : t = nullptr
  · refine ⟨_, _, _, hc, dtor_null rt _ _ ht, ?_⟩
    simp [newCalls, World.record, upgrades, releases, Call.isNewGlobalRef,
      Call.isDeleteGlobalRef, ht]
  · refine ⟨_, _, _, hc, dtor_attached rt _ _ ht hjvm (hatt _), ?_⟩
    simp [newCalls, World.record, upgrades, releases, Call.isNewGlobalRef,
      Call.isDeleteGlobalRef, ht]

/-- Instance of the amended C10: the handle `5` with the sample runtime. -/
theorem upgrade_release_balance_witness :
    sampleWorld.s_JVM ≠ nullptr ∧
    (∀ tr : List Call, sampleRuntime.AttachCurrentThread tr sampleWorld.s_JVM ≠ nullptr) ∧
    ∃ (self : JNIManagedPeer) (w1 w2 : World),
      JNIManagedPeer.ctor sampleRuntime 5 sampleWorld = .ok self w1 ∧
      JNIManagedPeer.dtor sampleRuntime self w1 = .ok () w2 ∧
      upgrades (newCalls sampleWorld w1) = 1 ∧ releases (newCalls w1 w2) = 1 := by
  have h1 : sampleWorld.s_JVM ≠ nullptr := by decide
  have h2 : ∀ tr : List Call,
      sampleRuntime.AttachCurrentThread tr sampleWorld.s_JVM ≠ nullptr := by
    intro tr
    show (101 : Nat) ≠ 0
    decide
  obtain ⟨self, w1, w2, hc, hd, hu, _, _, hr, _, _⟩ :=
    upgrade_release_balance sampleRuntime 5 sampleWorld h1 h2
  refine ⟨h1, h2, self, w1, w2, hc, hd, hu, ?_⟩
  rw [hr]
  decide

end JNI
